import Mathlib

/-!
Shallow embedding of `pkg/cel/libs/http/http.go` (kyverno CEL HTTP library).

The Go file exposes an executor (`contextImpl`) with `Get`, `Post`, a shared
`executeRequest` normalization routine, a `Client` method deriving a new
executor from a PEM CA bundle, and `NewHTTP` constructing the executor.

Go dynamic values decoded from JSON (`any`) are modelled by the `JSON`
inductive, with Go `nil` identified with `JSON.null` (exactly how
`encoding/json` represents a JSON null in an `any`).  Standard-library
collaborators that live outside this file (URL parsing inside
`http.NewRequestWithContext`, the behavior of `http.DefaultClient`, the
behavior of a derived `http.Client`, and `x509.CertPool.AppendCertsFromPEM`)
are parameters of an `Env` record: the theorems hold for every such
environment.
-/

/-- Dynamically-typed JSON value, the model of a decoded Go `any`.
Objects are association lists (Go `map[string]any`). -/
inductive JSON where
  | null : JSON
  | bool (b : Bool) : JSON
  | num (n : Int) : JSON
  | str (s : String) : JSON
  | arr (elems : List JSON) : JSON
  | obj (fields : List (String × JSON)) : JSON

/-- A Go `any` value handed to `Post` as `data`: JSON-representable values
plus markers for values `encoding/json` cannot serialize (non-finite
numbers, channels, functions, ...). -/
inductive GoData where
  | null : GoData
  | bool (b : Bool) : GoData
  | num (n : Int) : GoData
  | nan : GoData
  | str (s : String) : GoData
  | arr (elems : List GoData) : GoData
  | obj (fields : List (String × GoData)) : GoData
  | unsupported : GoData

mutual

/-- Model of `encoding/json` serialization of a Go `any`: fails (returns
`none`) exactly when the value contains a non-serializable element. -/
def jsonEncode : GoData → Option JSON
  | .null => some .null
  | .bool b => some (.bool b)
  | .num n => some (.num n)
  | .nan => none
  | .str s => some (.str s)
  | .arr xs => (jsonEncodeList xs).map JSON.arr
  | .obj kvs => (jsonEncodeObj kvs).map JSON.obj
  | .unsupported => none

/-- Serialize every element of a JSON array, failing if any element fails. -/
def jsonEncodeList : List GoData → Option (List JSON)
  | [] => some []
  | x :: xs =>
    match jsonEncode x, jsonEncodeList xs with
    | some j, some js => some (j :: js)
    | _, _ => none

/-- Serialize every field of a JSON object, failing if any value fails. -/
def jsonEncodeObj : List (String × GoData) → Option (List (String × JSON))
  | [] => some []
  | (k, v) :: rest =>
    match jsonEncode v, jsonEncodeObj rest with
    | some j, some js => some ((k, j) :: js)
    | _, _ => none

end

/-- An `x509.CertPool` built from PEM data, abstracted as the certificates
it contains. -/
abbrev CertPool := List String

/-- `tls.VersionTLS12` (0x0303). -/
def tlsVersionTLS12 : Nat := 771

/-- The `tls.Config` built by `Client`: root CAs and a minimum version. -/
structure TLSConfig where
  rootCAs : CertPool
  minVersion : Nat
deriving DecidableEq

/-- The `http.Transport` built by `Client`. -/
structure Transport where
  tlsClientConfig : TLSConfig
deriving DecidableEq

/-- An outgoing `http.Request` as this library builds it: method, URL, the
JSON-encoded body for POST (none for GET), and the header pairs added via
`req.Header.Add`. -/
structure Request where
  method : String
  url : String
  body : Option JSON
  headers : List (String × String)

/-- An `*http.Response` as `executeRequest` consumes it.  `body = none`
models `resp.Body == nil` (no body to decode); `body = some none` models a
body whose JSON decoding fails; `body = some (some j)` models a body that
decodes to `j`. -/
structure Response where
  statusCode : Int
  body : Option (Option JSON)

/-- Standard-library collaborators outside this file, consumed opaquely:
`urlOk` models whether `http.NewRequestWithContext` accepts the URL,
`defaultDo` the dispatch behavior of `http.DefaultClient`, `derivedDo` the
dispatch behavior of a derived `http.Client` over a given transport (with
the tracing decorator absorbed), and `parseCerts` the outcome of
`x509.CertPool.AppendCertsFromPEM` (`none` when no certificate parses). -/
structure Env where
  urlOk : String → Bool
  defaultDo : Request → Except String Response
  derivedDo : Transport → Request → Except String Response
  parseCerts : String → Option CertPool

/-- The dispatching collaborator held by an executor (`ClientInterface`):
either an injected test double, `http.DefaultClient`, or a fresh
`http.Client` over a derived transport. -/
inductive ClientV where
  | custom (doFn : Request → Except String Response)
  | defaultClient
  | derived (transport : Transport)

/-- `client.Do(req)`: dispatch a prepared request through the collaborator. -/
def doClient (env : Env) (c : ClientV) (req : Request) : Except String Response :=
  match c with
  | .custom f => f req
  | .defaultClient => env.defaultDo req
  | .derived t => env.derivedDo t req

/-- The executor (`contextImpl`): holds the single dispatching collaborator. -/
structure contextImpl where
  client : ClientV

/-- `NewHTTP`: a nil client argument is replaced by `http.DefaultClient`. -/
def NewHTTP (client : Option ClientV) : contextImpl :=
  match client with
  | none => ⟨ClientV.defaultClient⟩
  | some c => ⟨c⟩

/-- Error taxonomy of the library, replacing Go `fmt.Errorf` wrapping:
request construction failure, POST payload encoding failure, dispatch
failure (carrying the collaborator error), and CA-bundle parse failure. -/
inductive HErr where
  | buildErr
  | encodingErr
  | transportErr (e : String)
  | caBundleErr

/-- The decoded body value as Go leaves it in `var body any`: `nil` (our
`JSON.null`) when `resp.Body == nil` or when decoding fails, else the
decoded value. -/
def decodedBody (resp : Response) : JSON :=
  match resp.body with
  | none => .null
  | some none => .null
  | some (some j) => j

/-- Go map assignment `m[k] = v` on an association list with unique keys:
overwrite the entry for `k` if present, else add it. -/
def setKey : List (String × JSON) → String → JSON → List (String × JSON)
  | [], k, v => [(k, v)]
  | (k0, v0) :: rest, k, v =>
    if k0 = k then (k, v) :: rest else (k0, v0) :: setKey rest k v

/-- Association-list lookup (Go map read). -/
def lookupKey : List (String × JSON) → String → Option JSON
  | [], _ => none
  | (k0, v) :: rest, k => if k0 = k then some v else lookupKey rest k

/-- The Go type test `body.(map[string]any)`. -/
def isObj : JSON → Bool
  | .obj _ => true
  | _ => false

/-- The normalization branch of `executeRequest`: if the decoded body is a
map, set `statusCode` into it; otherwise wrap it as
`{body: ..., statusCode: ...}`. -/
def normalizeResponse (resp : Response) : JSON :=
  match decodedBody resp with
  | .obj kvs => .obj (setKey kvs "statusCode" (.num resp.statusCode))
  | b => .obj [("body", b), ("statusCode", .num resp.statusCode)]

/-- `executeRequest`: dispatch via the collaborator; a dispatch error is
wrapped and returned with a nil value; otherwise the response is
normalized and returned with a nil error. -/
def executeRequest (env : Env) (client : ClientV) (req : Request) : Except HErr JSON :=
  match doClient env client req with
  | .error e => .error (.transportErr e)
  | .ok resp => .ok (normalizeResponse resp)

/-- One `req.Header.Add(h, v)` call: append the pair. -/
def headerAdd (hs : List (String × String)) (k v : String) : List (String × String) :=
  hs ++ [(k, v)]

/-- The `for h, v := range headers { req.Header.Add(h, v) }` loop. -/
def applyHeaders (init : List (String × String)) (headers : List (String × String)) :
    List (String × String) :=
  headers.foldl (fun acc kv => headerAdd acc kv.1 kv.2) init

/-- The GET request `Get` hands to the dispatcher: built by
`http.NewRequestWithContext` with no body, then the header loop. -/
def getRequest (url : String) (headers : List (String × String)) : Request :=
  { method := "GET", url := url, body := none, headers := applyHeaders [] headers }

/-- The POST request `Post` hands to the dispatcher: encoded body, then the
header loop. -/
def postRequest (url : String) (bodyJ : JSON) (headers : List (String × String)) : Request :=
  { method := "POST", url := url, body := some bodyJ, headers := applyHeaders [] headers }

/-- `buildRequestData`: JSON-encode the POST payload; an encoding failure
is returned as an error. -/
def buildRequestData (data : GoData) : Except HErr JSON :=
  match jsonEncode data with
  | none => .error .encodingErr
  | some j => .ok j

/-- `Get`: build the request (failing on a bad URL), apply headers,
dispatch and normalize. -/
def Get (env : Env) (r : contextImpl) (url : String)
    (headers : List (String × String)) : Except HErr JSON :=
  if env.urlOk url then
    executeRequest env r.client (getRequest url headers)
  else
    .error .buildErr

/-- `Post`: encode the payload (failing first on a non-serializable value),
build the request, apply headers, dispatch and normalize. -/
def Post (env : Env) (r : contextImpl) (url : String) (data : GoData)
    (headers : List (String × String)) : Except HErr JSON :=
  match buildRequestData data with
  | .error e => .error e
  | .ok bodyJ =>
    if env.urlOk url then
      executeRequest env r.client (postRequest url bodyJ headers)
    else
      .error .buildErr

/-- The transport `Client` builds for a parsed pool: root CAs set to the
pool, minimum TLS version 1.2. -/
def mkTransport (pool : CertPool) : Transport :=
  { tlsClientConfig := { rootCAs := pool, minVersion := tlsVersionTLS12 } }

/-- `Client(caBundle)`, in state-passing form for the pointer receiver: the
first component is the receiver after the call (the method never writes to
it), the second the returned `(ContextInterface, error)` pair.  An empty
bundle returns the receiver itself; an unparsable bundle errors; otherwise
a fresh executor over the derived transport is returned. -/
def ClientOp (env : Env) (r : contextImpl) (caBundle : String) :
    contextImpl × Except HErr contextImpl :=
  if caBundle = "" then
    (r, .ok r)
  else
    match env.parseCerts caBundle with
    | none => (r, .error .caBundleErr)
    | some pool => (r, .ok ⟨ClientV.derived (mkTransport pool)⟩)

/-- A sample environment for concrete witnesses: every URL parses, network
clients refuse, and only the string "GOODPEM" parses as a CA bundle. -/
def sampleEnv : Env :=
  { urlOk := fun _ => true
    defaultDo := fun _ => .error "noNetwork"
    derivedDo := fun _ _ => .error "noNetwork"
    parseCerts := fun s => if s = "GOODPEM" then some ["rootCA"] else none }

/-- Sample response: status 200, body decoding to the object {"data":"value"}. -/
def sampleObjResp : Response :=
  { statusCode := 200, body := some (some (.obj [("data", .str "value")])) }

/-- Sample response: status 200, body decoding to the array [1, 2]. -/
def sampleArrResp : Response :=
  { statusCode := 200, body := some (some (.arr [.num 1, .num 2])) }

/-- Sample response: status 500, body present but not decodable as JSON. -/
def sampleBadResp : Response :=
  { statusCode := 500, body := some none }

/-! ## Helper lemmas -/

/-- After a Go map write of key `k`, reading `k` yields the written value. -/
theorem lookupKey_setKey_self (kvs : List (String × JSON)) (k : String) (v : JSON) :
    lookupKey (setKey kvs k v) k = some v := by
  induction kvs with
  | nil => simp [setKey, lookupKey]
  | cons hd tl ih =>
    obtain ⟨k0, v0⟩ := hd
    by_cases h : k0 = k
    · simp [setKey, lookupKey, h]
    · simp [setKey, lookupKey, h, ih]

/-- After a Go map write of key `k`, reading any other key is unchanged. -/
theorem lookupKey_setKey_other (kvs : List (String × JSON)) (k k1 : String) (v : JSON)
    (hne : k1 ≠ k) : lookupKey (setKey kvs k v) k1 = lookupKey kvs k1 := by
  induction kvs with
  | nil => simp [setKey, lookupKey, Ne.symm hne]
  | cons hd tl ih =>
    obtain ⟨k0, v0⟩ := hd
    by_cases h : k0 = k
    · subst h
      simp [setKey, lookupKey, Ne.symm hne]
    · simp [setKey, lookupKey, h, ih]

/-- The header loop starting from an empty header set applies exactly the
supplied pairs, in order. -/
theorem applyHeaders_nil (headers : List (String × String)) :
    applyHeaders [] headers = headers := by
  suffices h : ∀ init, applyHeaders init headers = init ++ headers by
    simpa using h []
  induction headers with
  | nil => intro init; simp [applyHeaders]
  | cons hd tl ih =>
    intro init
    simp [applyHeaders, headerAdd] at ih ⊢
    simp [ih]

/-! ## Claims -/

/-- C1: for every HTTP exchange whose body decodes as a JSON object, the
value returned by Get/Post is that same mapping with `statusCode`
inserted or overwritten to the status code; reading `statusCode` yields
the status code and every other key reads exactly as before. -/
theorem spec_C1 (env : Env) (resp : Response) (kvs : List (String × JSON))
    (url : String) (headers : List (String × String)) (data : GoData) (j : JSON)
    (h1 : env.urlOk url = true)
    (hdec : decodedBody resp = JSON.obj kvs)
    (henc : jsonEncode data = some j) :
    Get env ⟨ClientV.custom fun _ => .ok resp⟩ url headers
      = .ok (.obj (setKey kvs "statusCode" (.num resp.statusCode)))
    ∧ Post env ⟨ClientV.custom fun _ => .ok resp⟩ url data headers
      = .ok (.obj (setKey kvs "statusCode" (.num resp.statusCode)))
    ∧ lookupKey (setKey kvs "statusCode" (.num resp.statusCode)) "statusCode"
      = some (.num resp.statusCode)
    ∧ ∀ k, k ≠ "statusCode" →
        lookupKey (setKey kvs "statusCode" (.num resp.statusCode)) k = lookupKey kvs k := by
  refine ⟨?_, ?_, ?_, ?_⟩
  · simp [Get, h1, executeRequest, doClient, normalizeResponse, hdec]
  · simp [Post, buildRequestData, henc, h1, executeRequest, doClient, normalizeResponse, hdec]
  · exact lookupKey_setKey_self kvs _ _
  · intro k hk
    exact lookupKey_setKey_other kvs _ k _ hk

/-- C1 witness: a dispatcher returning {"data":"value"} with status 200
makes Get return {"data":"value","statusCode":200}. -/
theorem spec_C1_witness :
    Get sampleEnv ⟨ClientV.custom fun _ => .ok sampleObjResp⟩ "https://example.com" []
      = .ok (.obj [("data", .str "value"), ("statusCode", .num 200)]) :=
  (spec_C1 sampleEnv sampleObjResp [("data", .str "value")] "https://example.com" []
    GoData.null JSON.null rfl rfl rfl).1

/-- C2: for every HTTP exchange whose body decodes as a non-object JSON
value or fails to decode, Get/Post return a fresh mapping with exactly the
two keys `body` (the decoded value, null on failure) and `statusCode`. -/
theorem spec_C2 (env : Env) (resp : Response)
    (url : String) (headers : List (String × String)) (data : GoData) (j : JSON)
    (h1 : env.urlOk url = true)
    (hdec : isObj (decodedBody resp) = false)
    (henc : jsonEncode data = some j) :
    Get env ⟨ClientV.custom fun _ => .ok resp⟩ url headers
      = .ok (.obj [("body", decodedBody resp), ("statusCode", .num resp.statusCode)])
    ∧ Post env ⟨ClientV.custom fun _ => .ok resp⟩ url data headers
      = .ok (.obj [("body", decodedBody resp), ("statusCode", .num resp.statusCode)])
    ∧ List.map Prod.fst [("body", decodedBody resp), ("statusCode", JSON.num resp.statusCode)]
      = ["body", "statusCode"] := by
  have hnorm : normalizeResponse resp
      = .obj [("body", decodedBody resp), ("statusCode", .num resp.statusCode)] := by
    unfold normalizeResponse
    cases hd : decodedBody resp <;> simp_all [isObj]
  refine ⟨?_, ?_, by simp⟩
  · simp [Get, h1, executeRequest, doClient, hnorm]
  · simp [Post, buildRequestData, henc, h1, executeRequest, doClient, hnorm]

/-- C2 witness: a dispatcher returning [1,2] with status 200 makes Get
return {body: [1,2], statusCode: 200}. -/
theorem spec_C2_witness :
    Get sampleEnv ⟨ClientV.custom fun _ => .ok sampleArrResp⟩ "https://example.com" []
      = .ok (.obj [("body", .arr [.num 1, .num 2]), ("statusCode", .num 200)]) :=
  (spec_C2 sampleEnv sampleArrResp "https://example.com" []
    GoData.null JSON.null rfl rfl rfl).1

/-- C3: on any returned exchange whose body fails to decode as JSON,
Get/Post swallow the decode failure: they return a value with a null body
and the status code, and no error. -/
theorem spec_C3 (env : Env) (resp : Response)
    (url : String) (headers : List (String × String)) (data : GoData) (j : JSON)
    (h1 : env.urlOk url = true)
    (hfail : resp.body = some none)
    (henc : jsonEncode data = some j) :
    Get env ⟨ClientV.custom fun _ => .ok resp⟩ url headers
      = .ok (.obj [("body", .null), ("statusCode", .num resp.statusCode)])
    ∧ Post env ⟨ClientV.custom fun _ => .ok resp⟩ url data headers
      = .ok (.obj [("body", .null), ("statusCode", .num resp.statusCode)]) := by
  have hdec : decodedBody resp = .null := by simp [decodedBody, hfail]
  have hnorm : normalizeResponse resp
      = .obj [("body", .null), ("statusCode", .num resp.statusCode)] := by
    unfold normalizeResponse
    rw [hdec]
  refine ⟨?_, ?_⟩
  · simp [Get, h1, executeRequest, doClient, hnorm]
  · simp [Post, buildRequestData, henc, h1, executeRequest, doClient, hnorm]

/-- C3 witness: a malformed body with status 500 yields
{body: null, statusCode: 500} and no error. -/
theorem spec_C3_witness :
    Get sampleEnv ⟨ClientV.custom fun _ => .ok sampleBadResp⟩ "https://example.com" []
      = .ok (.obj [("body", .null), ("statusCode", .num 500)]) :=
  (spec_C3 sampleEnv sampleBadResp "https://example.com" []
    GoData.null JSON.null rfl rfl rfl).1

/-- C4: when the collaborator's Do fails, Get and Post both return a nil
value together with a non-nil (transport) error. -/
theorem spec_C4 (env : Env) (e : String)
    (url : String) (headers : List (String × String)) (data : GoData) (j : JSON)
    (h1 : env.urlOk url = true)
    (henc : jsonEncode data = some j) :
    Get env ⟨ClientV.custom fun _ => .error e⟩ url headers = .error (.transportErr e)
    ∧ Post env ⟨ClientV.custom fun _ => .error e⟩ url data headers
      = .error (.transportErr e) := by
  refine ⟨?_, ?_⟩
  · simp [Get, h1, executeRequest, doClient]
  · simp [Post, buildRequestData, henc, h1, executeRequest, doClient]

/-- C4 witness: a connection-refused double makes Get return a transport
error. -/
theorem spec_C4_witness :
    Get sampleEnv ⟨ClientV.custom fun _ => .error "connection refused"⟩
      "https://example.com" [] = .error (.transportErr "connection refused") :=
  (spec_C4 sampleEnv "connection refused" "https://example.com" []
    GoData.null JSON.null rfl rfl).1

/-- C5: for every payload that cannot be serialized to JSON, Post returns
an encoding error for every executor alike — the result never depends on
the dispatching collaborator, so Do is never invoked. -/
theorem spec_C5 (env : Env) (url : String) (data : GoData)
    (headers : List (String × String))
    (henc : jsonEncode data = none) :
    ∀ r : contextImpl, Post env r url data headers = .error .encodingErr := by
  intro r
  simp [Post, buildRequestData, henc]

/-- C5 witness: posting a NaN-containing object errors before dispatch,
for an executor whose dispatcher would otherwise answer. -/
theorem spec_C5_witness :
    Post sampleEnv ⟨ClientV.custom fun _ => .ok sampleObjResp⟩ "https://example.com"
      (.obj [("x", .nan)]) [] = .error .encodingErr :=
  spec_C5 sampleEnv "https://example.com" (.obj [("x", .nan)]) [] rfl
    ⟨ClientV.custom fun _ => .ok sampleObjResp⟩

/-- C6: deriving a client with an empty CA bundle returns the receiver
itself (identity), with a nil error, and leaves the receiver unchanged. -/
theorem spec_C6 (env : Env) (r : contextImpl) :
    ClientOp env r "" = (r, .ok r) := by
  simp [ClientOp]

/-- C7: deriving a client from a non-empty CA bundle from which no
certificate parses returns a nil executor and a non-nil error. -/
theorem spec_C7 (env : Env) (r : contextImpl) (ca : String)
    (hne : ca ≠ "")
    (hp : env.parseCerts ca = none) :
    (ClientOp env r ca).2 = .error .caBundleErr := by
  simp [ClientOp, hne, hp]

/-- C7 witness: an invalid PEM text yields the CA-bundle error. -/
theorem spec_C7_witness :
    (ClientOp sampleEnv ⟨ClientV.defaultClient⟩ "not a pem").2
      = .error .caBundleErr :=
  spec_C7 sampleEnv ⟨ClientV.defaultClient⟩ "not a pem" (by decide) rfl

/-- C8: deriving a client from a non-empty CA bundle that parses returns a
new executor over the derived transport (root CAs = the parsed pool,
minimum TLS 1.2), distinct from the receiver, and the receiver — its
dispatching collaborator included — is unchanged by the call. -/
theorem spec_C8 (env : Env) (r : contextImpl) (ca : String) (pool : CertPool)
    (hne : ca ≠ "")
    (hp : env.parseCerts ca = some pool)
    (hfresh : r.client ≠ ClientV.derived (mkTransport pool)) :
    (ClientOp env r ca).2 = .ok ⟨ClientV.derived (mkTransport pool)⟩
    ∧ (ClientOp env r ca).1 = r
    ∧ (⟨ClientV.derived (mkTransport pool)⟩ : contextImpl) ≠ r := by
  refine ⟨?_, ?_, ?_⟩
  · simp [ClientOp, hne, hp]
  · simp [ClientOp, hne, hp]
  · intro h
    exact hfresh ((congrArg contextImpl.client h).symm ▸ rfl)

/-- C8 witness: a parsing bundle yields a distinct executor over a
transport whose root CAs are the parsed pool, leaving the default-client
receiver intact. -/
theorem spec_C8_witness :
    (ClientOp sampleEnv ⟨ClientV.defaultClient⟩ "GOODPEM").2
      = .ok ⟨ClientV.derived (mkTransport ["rootCA"])⟩
    ∧ (ClientOp sampleEnv ⟨ClientV.defaultClient⟩ "GOODPEM").1
      = ⟨ClientV.defaultClient⟩
    ∧ (⟨ClientV.derived (mkTransport ["rootCA"])⟩ : contextImpl)
      ≠ ⟨ClientV.defaultClient⟩ :=
  spec_C8 sampleEnv ⟨ClientV.defaultClient⟩ "GOODPEM" ["rootCA"] (by decide) rfl
    (fun h => ClientV.noConfusion h)

/-- C9: the request Get/Post hand to the dispatcher carries exactly the
supplied header pairs, unmodified, and Get/Post indeed dispatch exactly
that request. -/
theorem spec_C9 (env : Env) (r : contextImpl) (url : String)
    (headers : List (String × String)) (data : GoData) (j : JSON)
    (h1 : env.urlOk url = true)
    (henc : jsonEncode data = some j) :
    (getRequest url headers).headers = headers
    ∧ (postRequest url j headers).headers = headers
    ∧ Get env r url headers = executeRequest env r.client (getRequest url headers)
    ∧ Post env r url data headers
      = executeRequest env r.client (postRequest url j headers) := by
  refine ⟨?_, ?_, ?_, ?_⟩
  · simp [getRequest, applyHeaders_nil]
  · simp [postRequest, applyHeaders_nil]
  · simp [Get, h1]
  · simp [Post, buildRequestData, henc, h1]

/-- C9 witness: two supplied header pairs arrive verbatim on the dispatched
GET request. -/
theorem spec_C9_witness :
    (getRequest "https://example.com"
        [("Authorization", "Bearer t"), ("x-custom", "v")]).headers
      = [("Authorization", "Bearer t"), ("x-custom", "v")] :=
  (spec_C9 sampleEnv ⟨ClientV.defaultClient⟩ "https://example.com"
    [("Authorization", "Bearer t"), ("x-custom", "v")]
    GoData.null JSON.null rfl rfl).1

/-- C10: constructing the context with a nil client does not fail and binds
the executor to the process-wide default client, so dispatch goes through
the default client, never through nil. -/
theorem spec_C10 :
    NewHTTP none = ⟨ClientV.defaultClient⟩
    ∧ ∀ (env : Env) (req : Request),
        doClient env (NewHTTP none).client req = env.defaultDo req := by
  refine ⟨rfl, ?_⟩
  intro env req
  simp [NewHTTP, doClient]
